import Mathlib

/-!
Verification development for the veusz document engine
(`document/doc.py` and `document/commandinterface.py`).

The Python code is shallowly embedded: numeric arrays become `List Int`
(the claims under study are about structure, lengths and identity of the
stored sequences, never about floating-point arithmetic), Python dicts
become association lists over `String` keys, in-place mutation becomes
explicit state passing, and a raised exception becomes an error value
returned together with the state the object was left in when the
exception escaped.  External collaborators (the `simpleread` parser,
`pyfits`, the Qt layer) are modelled as oracle parameters supplying the
data they would have produced; the code of this repository itself is
translated line by line.
-/

namespace Veusz

/-! ### Python dict operations over association lists -/

/-- Lookup in a Python dict modelled as an association list
(`m[k]` / `k in m`). -/
def dictGet {α : Type} : List (String × α) → String → Option α
  | [], _ => none
  | (k', v) :: t, k => if k' = k then some v else dictGet t k

/-- Assignment `m[k] = v` in a Python dict: replace the binding if the key
is present, otherwise add it. -/
def dictSet {α : Type} : List (String × α) → String → α → List (String × α)
  | [], k, v => [(k, v)]
  | (k', v') :: t, k, v => if k' = k then (k, v) :: t else (k', v') :: dictSet t k v

/-- Python `m.update(m2)`: fold the second dict's bindings into the first. -/
def dictUpdate {α : Type} (m m2 : List (String × α)) : List (String × α) :=
  m2.foldl (fun acc p => dictSet acc p.1 p.2) m

/-- A Python dict never holds two bindings for one key; association lists
standing for dicts satisfy this. -/
def dictKeysNodup {α : Type} (m : List (String × α)) : Prop :=
  (m.map Prod.fst).Nodup

theorem dictGet_dictSet_self {α : Type} (m : List (String × α)) (k : String) (v : α) :
    dictGet (dictSet m k v) k = some v := by
  induction m with
  | nil => simp [dictGet, dictSet]
  | cons p t ih =>
      obtain ⟨pk, pv⟩ := p
      by_cases h : pk = k
      · simp [dictGet, dictSet, h]
      · simp [dictGet, dictSet, h, ih]

theorem dictGet_dictSet_ne {α : Type} (m : List (String × α)) (k k' : String) (v : α)
    (h : k' ≠ k) : dictGet (dictSet m k v) k' = dictGet m k' := by
  have hkk : ¬ k = k' := fun h' => h h'.symm
  induction m with
  | nil => simp [dictGet, dictSet, hkk]
  | cons p t ih =>
      obtain ⟨pk, pv⟩ := p
      by_cases hp : pk = k
      · subst hp
        simp [dictGet, dictSet, hkk]
      · by_cases hp' : pk = k'
        · simp [dictGet, dictSet, hp, hp', h]
        · simp [dictGet, dictSet, hp, hp', ih]

/-! ### Linkage objects

Three variants (`LinkedFile`, `Linked2DFile`, `LinkedFITSFile`).  None of
these Python classes defines `__eq__` or `__hash__`, so the comparisons
`document.data[name].linked == self` and the dict keyed by linkage objects
in `reloadLinkedDatasets` work by object identity; the `uid` field models
that identity (every linkage object constructed during a run gets a
distinct `uid`).  The remaining fields carry the constructor arguments of
the corresponding class. -/

inductive LinkObj where
  | simpleFile (uid : Nat) (filename descriptor : String) (useblocks : Bool)
  | file2D (uid : Nat) (filename : String) (datasets : List String)
  | fits (uid : Nat) (dsname filename : String)
deriving DecidableEq

/-! ### Datasets -/

/-- The 1-D `Dataset` class: four optional numeric sequences (values,
symmetric, negative and positive errors) plus the optional link to the
file the dataset was imported from.  The `document` back-reference is not
carried: documents are compared through their dataset mapping, and the
back-reference merely names the owner. -/
structure Dataset where
  data : Option (List Int)
  serr : Option (List Int)
  nerr : Option (List Int)
  perr : Option (List Int)
  linked : Option LinkObj
deriving DecidableEq

/-- The `Dataset2D` class: a rectangular grid plus x/y coordinate ranges. -/
structure Dataset2D where
  data : List (List Int)
  xrange : Int × Int
  yrange : Int × Int
  linked : Option LinkObj
deriving DecidableEq

/-- For a rectangular grid, `shape[0]` of the numarray is the number of
rows. -/
def shape0 (data : List (List Int)) : Int := data.length

/-- For a rectangular grid, `shape[1]` of the numarray is the number of
columns (the common length of the rows). -/
def shape1 (data : List (List Int)) : Int := (data.headD []).length

/-- `Dataset2D.__init__`: store the grid; when a range argument is `None`
(a supplied pair is always truthy in Python), default `xrange` to
`(0, data.shape[0])` and `yrange` to `(0, data.shape[1])`, exactly as the
source writes them. -/
def Dataset2D.init (data : List (List Int)) (xrange yrange : Option (Int × Int)) :
    Dataset2D :=
  { data := data
    xrange := xrange.getD (0, shape0 data)
    yrange := yrange.getD (0, shape1 data)
    linked := none }

/-- A value of the document's dataset mapping: either a 1-D `Dataset` or a
`Dataset2D`.  (Expression datasets compute their parts from the document
on demand; their cached state is modelled separately as `ExprState`.) -/
inductive DS where
  | one (d : Dataset)
  | two (d : Dataset2D)
deriving DecidableEq

/-- The `linked` attribute of either dataset kind. -/
def DS.linked : DS → Option LinkObj
  | .one d => d.linked
  | .two d => d.linked

/-- Assignment to the `linked` attribute of either dataset kind. -/
def DS.withLinked : DS → Option LinkObj → DS
  | .one d, l => .one { d with linked := l }
  | .two d, l => .two { d with linked := l }

/-! ### The widget tree

The generic tree-node contract of the `widgets` module (names unique among
siblings, parent back-reference, `getChild` by exact name).  Modelled from
the spec: the widget classes themselves are outside the excerpt.  A widget
with its parent chain is a `Loc`: the node itself plus the list of its
ancestors, nearest first — this is exactly the information the Python
object graph gives through the `parent` back-references. -/

inductive WTree where
  | node (name : String) (children : List WTree)

/-- Name of a widget node. -/
def WTree.name : WTree → String
  | .node n _ => n

/-- Children of a widget node. -/
def WTree.children : WTree → List WTree
  | .node _ c => c

/-- Modelled from the spec: `widget.getChild(name)` looks up a direct child
by exact name (names are unique among siblings), giving `None` if absent. -/
def getChild (t : WTree) (nm : String) : Option WTree :=
  t.children.find? (fun c => c.name == nm)

/-- A widget together with its chain of ancestors (nearest first); the
root widget has an empty chain. -/
structure Loc where
  cur : WTree
  up : List WTree

/-! ### The Document -/

/-- The `Document` class: dataset mapping, widget tree root, monotonically
increasing change counter and the modified flag. -/
structure Document where
  data : List (String × DS)
  basewidget : WTree
  changeset : Nat
  modified : Bool

/-- Modelled from the spec: `widgets.Root(None, document=self)` creates a
fresh root node with no parent and no children yet. -/
def rootWidget : WTree := WTree.node ("/") []

/-- `Document.setModified(ismodified=True)`: set the flag and
unconditionally increment the changeset (the `sigModified` Qt signal is
outside the model). -/
def Document.setModified (doc : Document) (ismodified : Bool) : Document :=
  { doc with modified := ismodified, changeset := doc.changeset + 1 }

/-- `Document.setData`: install the dataset under the name (overwriting any
existing binding), then `setModified()` (defaulting to `True`). -/
def Document.setData (doc : Document) (name : String) (dataset : DS) : Document :=
  Document.setModified { doc with data := dictSet doc.data name dataset } true

/-- `Document.wipe`: empty the dataset mapping, recreate the root widget,
then `setModified(False)` (`sigWiped` is outside the model). -/
def Document.wipe (doc : Document) : Document :=
  Document.setModified { doc with data := [], basewidget := rootWidget } false

/-- The state effect of `Document.saveToFile`: the serialisation only
writes to the output file; the sole change to the document itself is the
final `setModified(False)`. -/
def Document.saveToFileState (doc : Document) : Document :=
  Document.setModified doc false

/-- How `Document.duplicateDataset` can fail. -/
inductive DupErr where
  | alreadyExists (name : String)
  | keyError
  | attributeError
deriving DecidableEq

/-- `Dataset.duplicate`: a new `Dataset` with the same four sequences and
no link. -/
def Dataset.duplicate (d : Dataset) : Dataset :=
  { data := d.data, serr := d.serr, nerr := d.nerr, perr := d.perr, linked := none }

/-- `Document.duplicateDataset(name, newname)`: raise `ValueError` if
`newname` is already bound (before touching anything); then look up
`name` (`KeyError` if absent; `Dataset2D` has no `duplicate` method, an
`AttributeError`), store the duplicate under `newname` and `setModified()`.
The document returned alongside an error is the state the object was left
in when the exception escaped. -/
def Document.duplicateDataset (doc : Document) (name newname : String) :
    Document × Option DupErr :=
  if (dictGet doc.data newname).isSome then
    (doc, some (DupErr.alreadyExists newname))
  else
    match dictGet doc.data name with
    | none => (doc, some DupErr.keyError)
    | some (DS.two _) => (doc, some DupErr.attributeError)
    | some (DS.one d) =>
        (Document.setModified
          { doc with data := dictSet doc.data newname (DS.one d.duplicate) } true,
         none)

/-! ### `Dataset.changeValues` -/

/-- How `Dataset.changeValues` can fail: `ValueError` for an unknown
`type` string, `AttributeError` when `self.data` is `None` (the
`self.data.shape` read), `AssertionError` from the length check. -/
inductive CVErr where
  | valueError
  | attributeError
  | assertionError
deriving DecidableEq

/-- The assignment dispatch at the top of `changeValues`: store `vals`
into the part named by `type`, or `None` for the `ValueError` branch. -/
def Dataset.assignPart (d : Dataset) (ty : String) (vals : List Int) : Option Dataset :=
  if ty = "vals" then some { d with data := some vals }
  else if ty = "serr" then some { d with serr := some vals }
  else if ty = "nerr" then some { d with nerr := some vals }
  else if ty = "perr" then some { d with perr := some vals }
  else none

/-- The assertion at the end of `changeValues` (and of `__init__`): every
present error sequence has the shape of the values sequence. -/
def Dataset.lengthsConsistent (d : Dataset) : Bool :=
  match d.data with
  | none => false
  | some dv =>
      (d.serr.elim true (fun e => e.length == dv.length)) &&
      (d.nerr.elim true (fun e => e.length == dv.length)) &&
      (d.perr.elim true (fun e => e.length == dv.length))

/-- `Dataset.changeValues(type, vals)`: assign the named part FIRST, then
run the shape assertion, then signal `document.setModified(True)`.  The
result is the dataset as the call leaves it, the error if one was raised,
and whether the modified signal was reached. -/
def Dataset.changeValues (d : Dataset) (ty : String) (vals : List Int) :
    Dataset × Option CVErr × Bool :=
  match Dataset.assignPart d ty vals with
  | none => (d, some CVErr.valueError, false)
  | some d' =>
      match d'.data with
      | none => (d', some CVErr.attributeError, false)
      | some _ =>
          if Dataset.lengthsConsistent d' then (d', none, true)
          else (d', some CVErr.assertionError, false)

/-! ### Expression datasets (`DatasetExpression`)

The class keeps a dict of four formula strings, a dict of evaluated
results, and two version attributes: `docchangeset`, set to `None` in
`__init__` and read by `_propValues`, and the attribute `changeset` that
`_propValues` actually assigns (`self.changeset = self.document.changeset`
— note the name).  The `eval` call against the environment built from the
document's 1-D datasets is an oracle parameter `evalEnv`: given the part
being computed and the formula text it returns the evaluated sequence or
the message of the exception `eval` raised. -/

/-- Exceptions a `DatasetExpression` read can raise. -/
inductive ExprExn where
  | evalError (expr msg : String)
  | lengthMismatch
deriving DecidableEq

/-- Mutable state of a `DatasetExpression` object. -/
structure ExprState where
  expr : String → Option String
  docchangeset : Option Nat
  changesetAttr : Option Nat
  evaluated : String → Option (List Int)

/-- Iteration order over the four parts (`self.expr` has exactly these
keys). -/
def exprPartNames : List String := ["data", "serr", "nerr", "perr"]

/-- Store one entry of the `self.evaluated` dict. -/
def setEval (s : ExprState) (part : String) (v : Option (List Int)) : ExprState :=
  { s with evaluated := fun q => if q = part then v else s.evaluated q }

/-- The per-part loop of `updateValues`: empty or absent formulas store
`None`; otherwise the formula is evaluated, a failure raising
`DatasetExpressionException` with the partly-updated dict left behind. -/
def evalLoop (evalEnv : String → String → Except String (List Int)) :
    ExprState → List String → ExprState × Option ExprExn
  | s, [] => (s, none)
  | s, part :: rest =>
      match s.expr part with
      | none => evalLoop evalEnv (setEval s part none) rest
      | some e =>
          if e = "" then evalLoop evalEnv (setEval s part none) rest
          else
            match evalEnv part e with
            | Except.error msg => (s, some (ExprExn.evalError e msg))
            | Except.ok v => evalLoop evalEnv (setEval s part (some v)) rest

/-- The trailing check of `updateValues`: every evaluated part that is not
`None` must have one common length (the chain comparison against `last`
over the parts in order). -/
def lengthCheck (s : ExprState) : Option ExprExn :=
  match exprPartNames.filterMap (fun p => (s.evaluated p).map List.length) with
  | [] => none
  | l0 :: rest => if rest.all (fun l => l == l0) then none else some ExprExn.lengthMismatch

/-- `DatasetExpression.updateValues`: evaluate the four formulas, then
check the lengths. -/
def updateValues (evalEnv : String → String → Except String (List Int))
    (s : ExprState) : ExprState × Option ExprExn :=
  match evalLoop evalEnv s exprPartNames with
  | (s', some e) => (s', some e)
  | (s', none) => (s', lengthCheck s')

/-- `DatasetExpression._propValues(name)`: when
`self.document.changeset != self.docchangeset` the code stores the new
version into the attribute `changeset` (exactly as the source line
`self.changeset = self.document.changeset` does — it does not touch
`docchangeset`) and calls `updateValues`; otherwise the cached dict is
read directly.  The `Nat` counts how many times `updateValues` ran during
the call. -/
def propValues (evalEnv : String → String → Except String (List Int))
    (docChangeset : Nat) (s : ExprState) (name : String) :
    ExprState × Nat × Option ExprExn × Option (List Int) :=
  if s.docchangeset ≠ some docChangeset then
    match updateValues evalEnv { s with changesetAttr := some docChangeset } with
    | (s2, e) => (s2, 1, e, s2.evaluated name)
  else (s, 0, none, s.evaluated name)

/-! ### Linked-file reloads

`LinkedFile.reloadLinks` and `Linked2DFile.reloadLinks` read the external
file into a scratch document and then move a scratch dataset into the live
document only when the live document already binds that name to a dataset
whose `linked` reference is this very object.  What the parser put into
the scratch document is an oracle parameter (the `simpleread` module is an
external collaborator).  `LinkedFITSFile.reloadLinks` has no scratch
document at all: it calls `document.importFITS` on the live document,
which ends in `setData`. -/

/-- The merge loop shared textually by `LinkedFile.reloadLinks` (lines
94-98): for every scratch dataset whose name is bound in the (mutating)
live document to a dataset with `linked == self`, record the name as read
and overwrite the binding with the scratch dataset. -/
def mergeStepLF (self : LinkObj) (acc : Document × List String) (p : String × DS) :
    Document × List String :=
  match dictGet acc.1.data p.1 with
  | some dlive =>
      if dlive.linked = some self then
        ({ acc.1 with data := dictSet acc.1.data p.1 p.2 }, acc.2 ++ [p.1])
      else acc
  | none => acc

/-- The merge loop of `LinkedFile.reloadLinks`, folded over the scratch
items. -/
def mergeScratchLF (self : LinkObj) (scratch : List (String × DS)) (doc : Document) :
    Document × List String :=
  scratch.foldl (mergeStepLF self) (doc, [])

/-- The merge loop of `Linked2DFile.reloadLinks` (lines 150-156): same
condition, but the moved dataset additionally gets `ds.linked = self`, and
`errors[name] = 0` is recorded per read name. -/
def mergeStep2D (self : LinkObj) (acc : Document × List String) (p : String × DS) :
    Document × List String :=
  match dictGet acc.1.data p.1 with
  | some dlive =>
      if dlive.linked = some self then
        ({ acc.1 with data := dictSet acc.1.data p.1 (DS.withLinked p.2 (some self)) },
         acc.2 ++ [p.1])
      else acc
  | none => acc

/-- The merge loop of `Linked2DFile.reloadLinks`, folded over the scratch
items. -/
def mergeScratch2D (self : LinkObj) (scratch : List (String × DS)) (doc : Document) :
    Document × List String :=
  scratch.foldl (mergeStep2D self) (doc, [])

/-- `LinkedFile.reloadLinks` returns a list of names; `Linked2DFile` the
same; `LinkedFITSFile` returns `self.dsname`, a plain string — the model
keeps both shapes so the caller's `read += nread` can be translated
faithfully. -/
inductive ReadRet where
  | list (names : List String)
  | str (s : String)
deriving DecidableEq

/-- Python `read += nread` where `read` is a list: a list extends
element-wise, a string extends by its characters, each a 1-character
string. -/
def ReadRet.asAppended : ReadRet → List String
  | .list l => l
  | .str s => s.toList.map (fun c => String.singleton c)

/-- What the external readers would produce for each linkage object:
the scratch dataset mapping of `SimpleRead.setInDocument` together with
the invalid-conversion counts, the scratch mapping of `import2D` (or
`None` for a `Read2DError`), and the dataset `importFITS` builds from the
FITS file. -/
structure ReloadOracle where
  lfScratch : LinkObj → List (String × DS)
  lfErrors : LinkObj → List (String × Nat)
  f2dScratch : LinkObj → Option (List (String × DS))
  fitsDataset : LinkObj → DS

/-- `reloadLinks(document)` of each linkage variant.
`LinkedFile`: merge the scratch document, `setModified(True)`, return the
read names and the parser's error counts.
`Linked2DFile`: a `Read2DError` returns error count 1 per configured
dataset name with the document untouched (the early `return` skips
`setModified`); otherwise merge, `setModified(True)`, error count 0 per
read name.
`LinkedFITSFile`: `importFITS` stores the freshly read dataset under
`self.dsname` unconditionally via `setData` (which itself bumps the
changeset), and the call returns the *string* `self.dsname` with
`{dsname: 0}`. -/
def LinkObj.reloadLinks (o : ReloadOracle) (self : LinkObj) (doc : Document) :
    Document × ReadRet × List (String × Nat) :=
  match self with
  | .simpleFile _ _ _ _ =>
      match mergeScratchLF self (o.lfScratch self) doc with
      | (d', read) => (Document.setModified d' true, ReadRet.list read, o.lfErrors self)
  | .file2D _ _ dsnames =>
      match o.f2dScratch self with
      | none => (doc, ReadRet.list [], dsnames.map (fun i => (i, 1)))
      | some scratch =>
          match mergeScratch2D self scratch doc with
          | (d', read) =>
              (Document.setModified d' true, ReadRet.list read,
               read.map (fun n => (n, 0)))
  | .fits _ dsname _ =>
      (Document.setData doc dsname (o.fitsDataset self), ReadRet.str dsname,
       [(dsname, 0)])

/-- First-occurrence deduplication of the linkage objects referenced by
the document's datasets (the `links` dict of `reloadLinkedDatasets` is
keyed by object identity). -/
def dedupLinksAux : List LinkObj → List LinkObj → List LinkObj
  | _, [] => []
  | seen, x :: t =>
      if x ∈ seen then dedupLinksAux seen t
      else x :: dedupLinksAux (x :: seen) t

/-- Deduplicate keeping first occurrences. -/
def dedupLinks (l : List LinkObj) : List LinkObj :=
  dedupLinksAux [] l

/-- Lexicographic strict order on character lists (Python string
comparison). -/
def charListLt : List Char → List Char → Bool
  | [], [] => false
  | [], _ :: _ => true
  | _ :: _, [] => false
  | a :: as, b :: bs =>
      if a < b then true else if b < a then false else charListLt as bs

/-- Python `a < b` on strings. -/
def strLt (a b : String) : Bool :=
  charListLt a.toList b.toList

/-- Insertion of a string into an ascending list (Python `list.sort()`
on strings, lexicographic by character). -/
def insertSorted (x : String) : List String → List String
  | [] => [x]
  | y :: t => if strLt x y then x :: y :: t else y :: insertSorted x t

/-- Python `read.sort()`: ascending sort. -/
def sortStrings (l : List String) : List String :=
  l.foldr insertSorted []

/-- `Document.reloadLinkedDatasets()`: collect the distinct linkage
objects referenced by any dataset; for each, call `reloadLinks` on the
live document, appending its read result to `read` (`+=`) and merging its
error dict (`errors.update`); if any link existed, `setModified()` once
more at the end; return `read` sorted.  The list of linkage objects the
loop invoked is returned too, so invocation counts are observable. -/
def Document.reloadLinkedDatasets (o : ReloadOracle) (doc : Document) :
    Document × List String × List (String × Nat) × List LinkObj :=
  let links := dedupLinks (doc.data.filterMap (fun p => DS.linked p.2))
  let step := links.foldl
    (fun (acc : Document × List String × List (String × Nat)) l =>
      match LinkObj.reloadLinks o l acc.1 with
      | (d', r, e) => (d', acc.2.1 ++ ReadRet.asAppended r, dictUpdate acc.2.2 e))
    (doc, [], [])
  match step with
  | (d, read, errors) =>
      if links.isEmpty then (d, sortStrings read, errors, links)
      else (Document.setModified d true, sortStrings read, errors, links)

/-! ### Path resolution (`Document.resolve` and `CommandInterface._resolve`) -/

/-- Errors `resolve` raises (`ValueError` in Python); the
child-not-found variant carries the offending segment verbatim
(`"Child '%s' does not exist" % p`). -/
inductive ResolveErr where
  | noParent
  | childNotFound (name : String)
deriving DecidableEq

/-- Python `where.split('/')`: split on every separator, keeping empty
pieces (so `""` gives `[""]` and a leading `/` gives a leading `""`). -/
def splitSlashChars : List Char → List (List Char)
  | [] => [[]]
  | c :: cs =>
      if c = '/' then [] :: splitSlashChars cs
      else
        match splitSlashChars cs with
        | [] => [[c]]
        | h :: t => (c :: h) :: t

/-- Python `where.split('/')` on a string. -/
def splitSlash (s : String) : List String :=
  (splitSlashChars s.toList).map (fun cs => String.mk cs)

/-- Python `where[:1] == '/'`. -/
def startsWithSlash (s : String) : Bool :=
  match s.toList with
  | '/' :: _ => true
  | _ => false

/-- The segment loop of `Document.resolve`: `..` moves to the parent
(failing at the root), `.` and the empty segment stay, anything else moves
to the child of that exact name (failing when absent). -/
def resolveParts : Loc → List String → Except ResolveErr Loc
  | loc, [] => Except.ok loc
  | loc, p :: ps =>
      if p = ".." then
        match loc.up with
        | [] => Except.error ResolveErr.noParent
        | q :: rest => resolveParts (Loc.mk q rest) ps
      else if p = "." ∨ p = "" then
        resolveParts loc ps
      else
        match getChild loc.cur p with
        | none => Except.error (ResolveErr.childNotFound p)
        | some c => resolveParts (Loc.mk c (loc.cur :: loc.up)) ps

/-- `Document.resolve(fromwidget, where)`: split the path; start at the
tree root when the path starts with `/`, else at `fromwidget`; walk the
segments. -/
def Document.resolve (doc : Document) (fromwidget : Loc) (whe : String) :
    Except ResolveErr Loc :=
  let parts := splitSlash whe
  let obj := if startsWithSlash whe then Loc.mk doc.basewidget [] else fromwidget
  resolveParts obj parts

/-- The `CommandInterface` object: the document it drives and the current
widget the navigation commands are relative to. -/
structure CommandInterface where
  document : Document
  currentwidget : Loc

/-- The segment loop of `CommandInterface._resolve`, embedded separately
from `resolveParts` because the source spells the loop out a second time
in `commandinterface.py`. -/
def ciResolveParts : Loc → List String → Except ResolveErr Loc
  | loc, [] => Except.ok loc
  | loc, p :: ps =>
      if p = ".." then
        match loc.up with
        | [] => Except.error ResolveErr.noParent
        | q :: rest => ciResolveParts (Loc.mk q rest) ps
      else if p = "." ∨ p = "" then
        ciResolveParts loc ps
      else
        match getChild loc.cur p with
        | none => Except.error (ResolveErr.childNotFound p)
        | some c => ciResolveParts (Loc.mk c (loc.cur :: loc.up)) ps

/-- `CommandInterface._resolve(where)`: same algorithm, starting at
`self.document.basewidget` for absolute paths and at `self.currentwidget`
otherwise. -/
def CommandInterface.resolveCI (ci : CommandInterface) (whe : String) :
    Except ResolveErr Loc :=
  let parts := splitSlash whe
  let obj :=
    if startsWithSlash whe then Loc.mk ci.document.basewidget [] else ci.currentwidget
  ciResolveParts obj parts

/-! ### `CommandInterface.GetData` and array copies

`GetData` hands the caller `.copy()`s of the stored numarrays.  To state
that the caller cannot reach the dataset's internal state through the
returned arrays, arrays are modelled with identity: a heap of cells
(`List (List Int)`) addressed by index, a dataset holding cell addresses,
`copy` allocating a fresh cell with the same contents, and the caller's
writes hitting only the addresses `GetData` returned. -/

/-- The array heap: each cell one numarray's contents. -/
abbrev Heap := List (List Int)

/-- Read a heap cell. -/
def readH (h : Heap) (r : Nat) : List Int :=
  h.getD r []

/-- Overwrite a heap cell (the caller mutating an array in place). -/
def writeH (h : Heap) (r : Nat) (v : List Int) : Heap :=
  h.set r v

/-- `arr.copy()`: allocate a fresh cell holding the same contents and hand
back its address. -/
def copyArr (h : Heap) (r : Nat) : Heap × Nat :=
  (h ++ [readH h r], h.length)

/-- The `x.copy() if x != None else None` pattern of `GetData`. -/
def copyOptArr (h : Heap) : Option Nat → Heap × Option Nat
  | none => (h, none)
  | some r => (h ++ [readH h r], some h.length)

/-- A literal dataset as the heap sees it: addresses of its four optional
arrays. -/
structure DatasetRefs where
  data : Option Nat
  serr : Option Nat
  nerr : Option Nat
  perr : Option Nat

/-- `CommandInterface.GetData(name)` on a literal dataset: copy each
present array in the order data, serr, nerr, perr and return the four
copies (absent parts stay `None`). -/
def GetData (h : Heap) (d : DatasetRefs) : Heap × DatasetRefs :=
  let s1 := copyOptArr h d.data
  let s2 := copyOptArr s1.1 d.serr
  let s3 := copyOptArr s2.1 d.nerr
  let s4 := copyOptArr s3.1 d.perr
  (s4.1, DatasetRefs.mk s1.2 s2.2 s3.2 s4.2)

/-- Contents behind an optional array address. -/
def refVal (h : Heap) (o : Option Nat) : Option (List Int) :=
  o.map (readH h)

/-- The observable contents of a dataset (or of the tuple `GetData`
returned): the four optional value sequences. -/
def refsContents (h : Heap) (d : DatasetRefs) :
    Option (List Int) × Option (List Int) × Option (List Int) × Option (List Int) :=
  (refVal h d.data, refVal h d.serr, refVal h d.nerr, refVal h d.perr)

/-- An address is one of the four a `DatasetRefs` holds. -/
def inRefs (d : DatasetRefs) (i : Nat) : Prop :=
  d.data = some i ∨ d.serr = some i ∨ d.nerr = some i ∨ d.perr = some i

/-- An optional address points at an existing cell of the heap. -/
def validRef (h : Heap) : Option Nat → Prop
  | none => True
  | some r => r < h.length

/-- A dataset's addresses all point at existing cells of the heap. -/
def validRefs (h : Heap) (d : DatasetRefs) : Prop :=
  validRef h d.data ∧ validRef h d.serr ∧ validRef h d.nerr ∧ validRef h d.perr

instance instDecidableValidRef (h : Heap) (o : Option Nat) : Decidable (validRef h o) :=
  match o with
  | none => isTrue trivial
  | some r => Nat.decLt r h.length

instance instDecidableValidRefs (h : Heap) (d : DatasetRefs) : Decidable (validRefs h d) :=
  decidable_of_iff
    (validRef h d.data ∧ validRef h d.serr ∧ validRef h d.nerr ∧ validRef h d.perr) Iff.rfl

instance instDecidableInRefs (d : DatasetRefs) (i : Nat) : Decidable (inRefs d i) :=
  decidable_of_iff
    (d.data = some i ∨ d.serr = some i ∨ d.nerr = some i ∨ d.perr = some i) Iff.rfl

/-- The caller's mutations: a sequence of in-place writes. -/
def applyWrites (h : Heap) (ws : List (Nat × List Int)) : Heap :=
  ws.foldl (fun h w => writeH h w.1 w.2) h

/-! ## Theorems about the claims -/

/-- C8: what `Dataset2D.__init__` actually stores for missing ranges.  In
general (and in particular on a grid of 2 rows and 3 columns) the x-range
defaults to `(0, shape[0])`, the number of ROWS (the height), and the
y-range to `(0, shape[1])`, the number of COLUMNS (the width) — the
opposite pairing from the claimed `(0, width)` / `(0, height)`; note the
rest of the file (the WCS branch of `importFITS`, the row-reversed y order
of `Dataset2D.saveToFile`) pairs x with columns and y with rows. -/
theorem C8_dataset2d_default_ranges :
    (∀ data : List (List Int),
        (Dataset2D.init data none none).xrange = (0, shape0 data) ∧
        (Dataset2D.init data none none).yrange = (0, shape1 data)) ∧
    (Dataset2D.init [[1, 2, 3], [4, 5, 6]] none none).xrange = (0, 2) ∧
    (Dataset2D.init [[1, 2, 3], [4, 5, 6]] none none).yrange = (0, 3) := by
  exact ⟨fun data => ⟨rfl, rfl⟩, rfl, rfl⟩

/-- C5: `Document.duplicateDataset(name, newname)` with `newname` already
bound raises the already-exists `ValueError` before mutating anything: the
returned document is the input document, so both bindings keep their prior
values. -/
theorem C5_duplicate_collision (doc : Document) (name newname : String)
    (h : (dictGet doc.data newname).isSome = true) :
    Document.duplicateDataset doc name newname =
      (doc, some (DupErr.alreadyExists newname)) := by
  simp [Document.duplicateDataset, h]

/-- Concrete documents for the C5 witness. -/
def dsA5 : Dataset :=
  { data := some [1, 2], serr := none, nerr := none, perr := none, linked := none }

def dsB5 : Dataset :=
  { data := some [3], serr := none, nerr := none, perr := none, linked := none }

def exDoc5 : Document :=
  { data := [("A", DS.one dsA5), ("B", DS.one dsB5)]
    basewidget := rootWidget
    changeset := 3
    modified := false }

/-- Witness for C5 at the spec's concrete scenario: duplicating `"A"` to
the existing name `"B"`. -/
theorem C5_duplicate_collision_witness :
    (dictGet exDoc5.data ("B")).isSome = true ∧
    Document.duplicateDataset exDoc5 ("A") ("B") =
      (exDoc5, some (DupErr.alreadyExists ("B"))) :=
  ⟨rfl, C5_duplicate_collision exDoc5 ("A") ("B") rfl⟩

/-- Concrete dataset for the C2 counterexample: three values, no errors. -/
def dsC2 : Dataset :=
  { data := some [0, 1, 2], serr := none, nerr := none, perr := none, linked := none }

/-- C2 counterexample: `changeValues('serr', [0, 1])` on a 3-value dataset
raises the length assertion, but only AFTER `self.serr = vals` has run:
the call neither returns with consistent lengths nor fails with the
dataset unchanged, refuting the claim's fails-before-commit disjunct at
this input. -/
theorem C2_counterexample :
    ¬ (((dsC2.changeValues ("serr") [0, 1]).2.1 = none ∧
          Dataset.lengthsConsistent (dsC2.changeValues ("serr") [0, 1]).1 = true) ∨
        ((dsC2.changeValues ("serr") [0, 1]).2.1 ≠ none ∧
          (dsC2.changeValues ("serr") [0, 1]).1 = dsC2)) := by
  decide

/-- Which stored sequences a `changeValues(type, ...)` call may NOT touch:
everything other than the part its `type` names, and the link. -/
def unchangedExceptPart (d d' : Dataset) (ty : String) : Prop :=
  (ty ≠ "vals" → d'.data = d.data) ∧
  (ty ≠ "serr" → d'.serr = d.serr) ∧
  (ty ≠ "nerr" → d'.nerr = d.nerr) ∧
  (ty ≠ "perr" → d'.perr = d.perr) ∧
  d'.linked = d.linked

/-- The part of a dataset a `type` string addresses. -/
def Dataset.part (d : Dataset) (ty : String) : Option (List Int) :=
  if ty = "vals" then d.data
  else if ty = "serr" then d.serr
  else if ty = "nerr" then d.nerr
  else if ty = "perr" then d.perr
  else none

/-- An assignment step that succeeded touched exactly the addressed part,
and left the new sequence there. -/
theorem assignPart_frame (d : Dataset) (ty : String) (vals : List Int) (d₀ : Dataset)
    (h : Dataset.assignPart d ty vals = some d₀) :
    unchangedExceptPart d d₀ ty ∧ Dataset.part d₀ ty = some vals := by
  revert h
  unfold Dataset.assignPart Dataset.part unchangedExceptPart
  by_cases h1 : ty = "vals"
  · subst h1
    simp only [if_pos rfl]
    intro h
    obtain rfl := Option.some.inj h
    exact ⟨⟨fun hh => absurd rfl hh, fun _ => rfl, fun _ => rfl, fun _ => rfl, rfl⟩, rfl⟩
  · rw [if_neg h1]
    by_cases h2 : ty = "serr"
    · subst h2
      simp only [if_pos rfl]
      intro h
      obtain rfl := Option.some.inj h
      exact ⟨⟨fun _ => rfl, fun hh => absurd rfl hh, fun _ => rfl, fun _ => rfl, rfl⟩,
        by simp⟩
    · rw [if_neg h2]
      by_cases h3 : ty = "nerr"
      · subst h3
        simp only [if_pos rfl]
        intro h
        obtain rfl := Option.some.inj h
        exact ⟨⟨fun _ => rfl, fun _ => rfl, fun hh => absurd rfl hh, fun _ => rfl, rfl⟩,
          by simp⟩
      · rw [if_neg h3]
        by_cases h4 : ty = "perr"
        · subst h4
          simp only [if_pos rfl]
          intro h
          obtain rfl := Option.some.inj h
          exact ⟨⟨fun _ => rfl, fun _ => rfl, fun _ => rfl, fun hh => absurd rfl hh, rfl⟩,
            by simp⟩
        · rw [if_neg h4]
          intro h
          exact absurd h (by simp)

/-- C2 amended: on successful return every present error sequence has the
length of the values (and the modified signal fired); any failure happens
before the modified signal and leaves every part other than the addressed
one unchanged; an unknown `type` fails with nothing changed; but a length
mismatch fails only AFTER the addressed part has been replaced by the new
sequence — the check runs after the assignment, so the call does not fail
before commit. -/
theorem C2_changeValues_amended (d : Dataset) (ty : String) (vals : List Int)
    (d' : Dataset) (e : Option CVErr) (sig : Bool)
    (h : d.changeValues ty vals = (d', e, sig)) :
    (e = none → Dataset.lengthsConsistent d' = true ∧ sig = true) ∧
    (e ≠ none → sig = false) ∧
    (e = some CVErr.valueError → d' = d) ∧
    (e = some CVErr.assertionError → Dataset.part d' ty = some vals) ∧
    unchangedExceptPart d d' ty := by
  rcases hA : Dataset.assignPart d ty vals with _ | d₀
  · have hv : d.changeValues ty vals = (d, some CVErr.valueError, false) := by
      simp only [Dataset.changeValues, hA]
    rw [hv] at h
    simp only [Prod.mk.injEq] at h
    obtain ⟨rfl, rfl, rfl⟩ := h
    refine ⟨fun hh => ?_, fun _ => rfl, fun _ => rfl, fun hh => ?_,
      fun _ => rfl, fun _ => rfl, fun _ => rfl, fun _ => rfl, rfl⟩
    · exact Option.noConfusion hh
    · exact absurd (Option.some.inj hh) (by decide)
  · obtain ⟨hframe, hpart⟩ := assignPart_frame d ty vals d₀ hA
    rcases hD : d₀.data with _ | dv
    · have hv : d.changeValues ty vals = (d₀, some CVErr.attributeError, false) := by
        simp only [Dataset.changeValues, hA, hD]
      rw [hv] at h
      simp only [Prod.mk.injEq] at h
      obtain ⟨rfl, rfl, rfl⟩ := h
      refine ⟨fun hh => ?_, fun _ => rfl, fun hh => ?_, fun hh => ?_, hframe⟩
      · exact Option.noConfusion hh
      · exact absurd (Option.some.inj hh) (by decide)
      · exact absurd (Option.some.inj hh) (by decide)
    · by_cases hC : Dataset.lengthsConsistent d₀ = true
      · have hv : d.changeValues ty vals = (d₀, none, true) := by
          simp only [Dataset.changeValues, hA, hD, hC, if_true]
        rw [hv] at h
        simp only [Prod.mk.injEq] at h
        obtain ⟨rfl, rfl, rfl⟩ := h
        refine ⟨fun _ => ⟨hC, rfl⟩, fun hh => absurd rfl hh, fun hh => ?_,
          fun hh => ?_, hframe⟩
        · exact Option.noConfusion hh
        · exact Option.noConfusion hh
      · have hv : d.changeValues ty vals = (d₀, some CVErr.assertionError, false) := by
          simp only [Dataset.changeValues, hA, hD, if_neg hC]
        rw [hv] at h
        simp only [Prod.mk.injEq] at h
        obtain ⟨rfl, rfl, rfl⟩ := h
        refine ⟨fun hh => ?_, fun _ => rfl, fun hh => ?_, fun _ => hpart, hframe⟩
        · exact Option.noConfusion hh
        · exact absurd (Option.some.inj hh) (by decide)

/-- Witness for the amended C2 at a concrete successful mutation. -/
theorem C2_changeValues_amended_witness :
    Dataset.lengthsConsistent (dsC2.changeValues ("vals") [7, 8, 9]).1 = true ∧
    (dsC2.changeValues ("vals") [7, 8, 9]).2.2 = true :=
  (C2_changeValues_amended dsC2 ("vals") [7, 8, 9]
    (dsC2.changeValues ("vals") [7, 8, 9]).1
    (dsC2.changeValues ("vals") [7, 8, 9]).2.1
    (dsC2.changeValues ("vals") [7, 8, 9]).2.2 rfl).1 rfl

/-- Storing into `self.evaluated` leaves `docchangeset` alone. -/
theorem setEval_docchangeset (s : ExprState) (part : String) (v : Option (List Int)) :
    (setEval s part v).docchangeset = s.docchangeset := rfl

/-- The evaluation loop never writes `docchangeset`. -/
theorem evalLoop_docchangeset (ev : String → String → Except String (List Int)) :
    ∀ (parts : List String) (s : ExprState),
      ((evalLoop ev s parts).1).docchangeset = s.docchangeset := by
  intro parts
  induction parts with
  | nil => intro s; rfl
  | cons p rest ih =>
      intro s
      simp only [evalLoop]
      cases s.expr p with
      | none => exact ih (setEval s p none)
      | some e =>
          by_cases he : e = ""
          · simp only [if_pos he]
            exact ih (setEval s p none)
          · simp only [if_neg he]
            cases ev p e with
            | error msg => rfl
            | ok v => exact ih (setEval s p (some v))

/-- `updateValues` never writes `docchangeset`. -/
theorem updateValues_docchangeset (ev : String → String → Except String (List Int))
    (s : ExprState) : ((updateValues ev s).1).docchangeset = s.docchangeset := by
  unfold updateValues
  rcases hL : evalLoop ev s exprPartNames with ⟨s', oe⟩
  have := evalLoop_docchangeset ev exprPartNames s
  rw [hL] at this
  cases oe <;> simpa using this

/-- C1: the cache of a `DatasetExpression` is never validated.
`_propValues` assigns the fresh document version to the attribute
`changeset` instead of `docchangeset`, so `docchangeset` survives the call
unchanged; consequently a dataset that was stale once (as every dataset
is, `docchangeset` being initialised to `None`) re-invokes `updateValues`
on BOTH of two consecutive reads with no intervening document mutation —
the second read is not served from the cache, contradicting the claim. -/
theorem C1_cache_never_validated (ev : String → String → Except String (List Int))
    (cs : Nat) (s : ExprState) (name : String) (h : s.docchangeset ≠ some cs) :
    ((propValues ev cs s name).1).docchangeset = s.docchangeset ∧
    (propValues ev cs s name).2.1 = 1 ∧
    (propValues ev cs ((propValues ev cs s name).1) name).2.1 = 1 := by
  have h1 : propValues ev cs s name =
      ((updateValues ev { s with changesetAttr := some cs }).1, 1,
        (updateValues ev { s with changesetAttr := some cs }).2,
        ((updateValues ev { s with changesetAttr := some cs }).1).evaluated name) := by
    rw [propValues, if_pos h]
  have hdc : ((propValues ev cs s name).1).docchangeset = s.docchangeset := by
    rw [h1]
    exact updateValues_docchangeset ev { s with changesetAttr := some cs }
  refine ⟨hdc, by rw [h1], ?_⟩
  have h2 : ((propValues ev cs s name).1).docchangeset ≠ some cs := by
    rw [hdc]; exact h
  rw [propValues, if_pos h2]

/-- Concrete expression dataset for the C1 witness: formula on the `data`
part only, freshly constructed (`docchangeset = None`). -/
def exprC1 : ExprState :=
  { expr := fun p => if p = "data" then some "temp - 273.15" else none
    docchangeset := none
    changesetAttr := none
    evaluated := fun _ => none }

/-- Witness for C1: with any evaluator, at document version 0, both of two
consecutive reads run `updateValues`. -/
theorem C1_cache_never_validated_witness :
    ((propValues (fun _ _ => Except.ok [1]) 0 exprC1 ("data")).2.1 = 1) ∧
    ((propValues (fun _ _ => Except.ok [1]) 0
        ((propValues (fun _ _ => Except.ok [1]) 0 exprC1 ("data")).1) ("data")).2.1 = 1) :=
  ⟨(C1_cache_never_validated (fun _ _ => Except.ok [1]) 0 exprC1 ("data")
      (fun hh => Option.noConfusion hh)).2.1,
   (C1_cache_never_validated (fun _ _ => Except.ok [1]) 0 exprC1 ("data")
      (fun hh => Option.noConfusion hh)).2.2⟩

/-- C10: `setModified` increments the changeset by exactly one whatever
flag it is passed; `wipe` and the end of `saveToFile` (which call
`setModified(False)`) therefore advance it too; the changeset strictly
increases; and any expression dataset whose recorded version is at most
the pre-call changeset is stale after a wipe or a save, so its next
`_propValues` read re-runs `updateValues`. -/
theorem C10_setModified_always_increments :
    (∀ (doc : Document) (b : Bool),
        (Document.setModified doc b).changeset = doc.changeset + 1) ∧
    (∀ doc : Document, (Document.wipe doc).changeset = doc.changeset + 1) ∧
    (∀ doc : Document, (Document.saveToFileState doc).changeset = doc.changeset + 1) ∧
    (∀ (doc : Document) (b : Bool), doc.changeset < (Document.setModified doc b).changeset) ∧
    (∀ (doc : Document) (ev : String → String → Except String (List Int))
        (s : ExprState) (name : String) (v : Nat),
        s.docchangeset = some v → v ≤ doc.changeset →
        (propValues ev (Document.wipe doc).changeset s name).2.1 = 1 ∧
        (propValues ev (Document.saveToFileState doc).changeset s name).2.1 = 1) := by
  refine ⟨fun doc b => rfl, fun doc => rfl, fun doc => rfl,
    fun doc b => Nat.lt_succ_self _, ?_⟩
  intro doc ev s name v hv hle
  have hstale : ∀ cs : Nat, cs = doc.changeset + 1 → s.docchangeset ≠ some cs := by
    intro cs hcs heq
    rw [hv] at heq
    have : v = cs := Option.some.inj heq
    omega
  constructor
  · have hcs : (Document.wipe doc).changeset = doc.changeset + 1 := rfl
    rw [hcs, propValues, if_pos (hstale _ rfl)]
  · have hcs : (Document.saveToFileState doc).changeset = doc.changeset + 1 := rfl
    rw [hcs, propValues, if_pos (hstale _ rfl)]

/-- Concrete document for the C10 witness. -/
def docC10 : Document :=
  { data := [], basewidget := rootWidget, changeset := 4, modified := true }

/-- Concrete expression state for the C10 witness: last evaluated at
version 4. -/
def exprC10 : ExprState :=
  { expr := fun _ => none
    docchangeset := some 4
    changesetAttr := none
    evaluated := fun _ => none }

/-- Witness for C10 at a concrete document and expression dataset. -/
theorem C10_setModified_always_increments_witness :
    (propValues (fun _ _ => Except.ok []) (Document.wipe docC10).changeset
        exprC10 ("data")).2.1 = 1 ∧
    (propValues (fun _ _ => Except.ok []) (Document.saveToFileState docC10).changeset
        exprC10 ("data")).2.1 = 1 :=
  C10_setModified_always_increments.2.2.2.2 docC10 (fun _ _ => Except.ok [])
    exprC10 ("data") 4 rfl (by decide)

/-- C4: the three path-resolution laws.  `resolve(root, "/a/b/..")` agrees
with `resolve(root, "/a")` whenever both succeed; `resolve(node, ".")`
returns the node itself; and a segment that is not `..`, `.` or empty and
names no child of the current node fails with a child-not-found error
that carries the missing segment. -/
theorem C4_resolve_paths :
    (∀ (doc : Document) (l₁ l₂ : Loc),
        Document.resolve doc (Loc.mk doc.basewidget []) ("/a/b/..") = Except.ok l₁ →
        Document.resolve doc (Loc.mk doc.basewidget []) ("/a") = Except.ok l₂ →
        l₁ = l₂) ∧
    (∀ (doc : Document) (loc : Loc), Document.resolve doc loc (".") = Except.ok loc) ∧
    (∀ (loc : Loc) (p : String) (ps : List String),
        p ≠ ".." → ¬(p = "." ∨ p = "") → getChild loc.cur p = none →
        resolveParts loc (p :: ps) = Except.error (ResolveErr.childNotFound p)) := by
  refine ⟨?_, fun doc loc => rfl, ?_⟩
  · intro doc l₁ l₂ h1 h2
    have e1 : (match getChild doc.basewidget ("a") with
               | none => (Except.error (ResolveErr.childNotFound ("a")) : Except ResolveErr Loc)
               | some c =>
                   match getChild c ("b") with
                   | none => Except.error (ResolveErr.childNotFound ("b"))
                   | some _ => Except.ok (Loc.mk c [doc.basewidget])) = Except.ok l₁ := h1
    have e2 : (match getChild doc.basewidget ("a") with
               | none => (Except.error (ResolveErr.childNotFound ("a")) : Except ResolveErr Loc)
               | some c => Except.ok (Loc.mk c [doc.basewidget])) = Except.ok l₂ := h2
    rcases hc1 : getChild doc.basewidget ("a") with _ | c
    · rw [hc1] at e2
      exact Except.noConfusion e2
    · rw [hc1] at e1 e2
      dsimp only at e1 e2
      rcases hc2 : getChild c ("b") with _ | c2
      · rw [hc2] at e1
        exact Except.noConfusion e1
      · rw [hc2] at e1
        dsimp only at e1
        have w1 := Except.ok.inj e1
        have w2 := Except.ok.inj e2
        rw [← w1, ← w2]
  · intro loc p ps hp1 hp2 hc
    simp only [resolveParts]
    rw [if_neg hp1, if_neg hp2, hc]

/-- Concrete widget tree for the C4 witness. -/
def exT4 : WTree := WTree.node ("root") [WTree.node ("a") [WTree.node ("b") []]]

/-- Concrete document for the C4 witness. -/
def docT4 : Document :=
  { data := [], basewidget := exT4, changeset := 0, modified := false }

/-- Witness for C4 on a concrete three-node tree. -/
theorem C4_resolve_paths_witness :
    (Loc.mk (WTree.node ("a") [WTree.node ("b") []]) [exT4] =
      Loc.mk (WTree.node ("a") [WTree.node ("b") []]) [exT4]) ∧
    Document.resolve docT4 (Loc.mk exT4 []) (".") = Except.ok (Loc.mk exT4 []) ∧
    resolveParts (Loc.mk exT4 []) ["c"] = Except.error (ResolveErr.childNotFound ("c")) :=
  ⟨C4_resolve_paths.1 docT4 _ _ rfl rfl,
   C4_resolve_paths.2.1 docT4 (Loc.mk exT4 []),
   C4_resolve_paths.2.2 (Loc.mk exT4 []) ("c") [] (by decide) (by decide) rfl⟩

/-- The two hand-written copies of the segment loop (in `doc.py` and in
`commandinterface.py`) agree on every location and segment list. -/
theorem ciResolveParts_eq_resolveParts :
    ∀ (ps : List String) (loc : Loc), ciResolveParts loc ps = resolveParts loc ps := by
  intro ps
  induction ps with
  | nil => intro loc; rfl
  | cons p rest ih =>
      intro loc
      obtain ⟨cur, up⟩ := loc
      by_cases h1 : p = ".."
      · subst h1
        cases up with
        | nil => rfl
        | cons q r => exact ih (Loc.mk q r)
      · simp only [ciResolveParts, resolveParts, if_neg h1]
        by_cases h2 : p = "." ∨ p = ""
        · rw [if_pos h2, if_pos h2]
          exact ih _
        · rw [if_neg h2, if_neg h2]
          cases hc : getChild cur p with
          | none => rfl
          | some c => exact ih _

/-- C7: `CommandInterface._resolve(path)` with `currentwidget` as the
origin computes exactly what `Document.resolve(origin, path)` computes —
the same widget or the same error, for every origin and path. -/
theorem C7_resolvers_agree (ci : CommandInterface) (whe : String) :
    CommandInterface.resolveCI ci whe = Document.resolve ci.document ci.currentwidget whe := by
  simp only [CommandInterface.resolveCI, Document.resolve, ciResolveParts_eq_resolveParts]

/-- Concrete FITS linkage for C3: its stored dataset name is `Y`. -/
def fitsL3 : LinkObj := LinkObj.fits 0 ("Y") ("data.fits")

/-- Live dataset actually linked to the FITS file (under the name `X`,
say after a rename). -/
def dsX3 : Dataset :=
  { data := some [1], serr := none, nerr := none, perr := none, linked := some fitsL3 }

/-- Unrelated literal dataset that happens to be called `Y`. -/
def dsY3 : Dataset :=
  { data := some [9], serr := none, nerr := none, perr := none, linked := none }

/-- Concrete document for the C3 counterexample. -/
def docC3 : Document :=
  { data := [("X", DS.one dsX3), ("Y", DS.one dsY3)]
    basewidget := rootWidget
    changeset := 0
    modified := false }

/-- What `importFITS` reads from the file during the reload. -/
def freshY3 : DS :=
  DS.one { data := some [7], serr := none, nerr := none, perr := none, linked := none }

/-- Oracle for the C3 counterexample. -/
def oracleC3 : ReloadOracle :=
  { lfScratch := fun _ => []
    lfErrors := fun _ => []
    f2dScratch := fun _ => none
    fitsDataset := fun _ => freshY3 }

/-- C3 counterexample: reloading the FITS linkage object `fitsL3` rewrites
the live dataset `Y` even though `Y`'s `linked` reference is `None` (not
this object) — `LinkedFITSFile.reloadLinks` has no scratch document and no
linked-to-me check, it ends in an unconditional `setData(self.dsname, …)`.
So the claim's for-every-linkage isolation guarantee fails. -/
theorem C3_counterexample :
    DS.linked (DS.one dsY3) ≠ some fitsL3 ∧
    dictGet docC3.data ("Y") = some (DS.one dsY3) ∧
    dictGet ((LinkObj.reloadLinks oracleC3 fitsL3 docC3).1).data ("Y") ≠
      some (DS.one dsY3) := by
  decide

/-- Proof-side generalisation of the two merge steps: `store` is the
identity for `LinkedFile` and the relink for `Linked2DFile`. -/
def mergeStepGen (self : LinkObj) (store : DS → DS) (acc : Document × List String)
    (p : String × DS) : Document × List String :=
  match dictGet acc.1.data p.1 with
  | some dlive =>
      if dlive.linked = some self then
        ({ acc.1 with data := dictSet acc.1.data p.1 (store p.2) }, acc.2 ++ [p.1])
      else acc
  | none => acc

theorem mergeStepGen_data_ne (self : LinkObj) (store : DS → DS)
    (st : Document × List String) (p : String × DS) (n : String) (h : p.1 ≠ n) :
    dictGet (mergeStepGen self store st p).1.data n = dictGet st.1.data n := by
  unfold mergeStepGen
  cases hg : dictGet st.1.data p.1 with
  | none => rfl
  | some dlive =>
      dsimp only
      by_cases hl : dlive.linked = some self
      · rw [if_pos hl]
        exact dictGet_dictSet_ne _ _ _ _ (fun hh => h hh.symm)
      · rw [if_neg hl]

theorem mergeFoldGen_data_notmem (self : LinkObj) (store : DS → DS) :
    ∀ (scratch : List (String × DS)) (st : Document × List String) (n : String),
      n ∉ scratch.map Prod.fst →
      dictGet ((scratch.foldl (mergeStepGen self store) st).1).data n =
        dictGet st.1.data n := by
  intro scratch
  induction scratch with
  | nil => intro st n _; rfl
  | cons p rest ih =>
      intro st n hn
      rw [List.map_cons, List.mem_cons] at hn
      push_neg at hn
      rw [List.foldl_cons, ih _ n hn.2]
      exact mergeStepGen_data_ne self store st p n (fun hh => hn.1 hh.symm)

theorem mergeFoldGen_read_indep (self : LinkObj) (store : DS → DS) :
    ∀ (scratch : List (String × DS)) (d : Document) (r r' : List String),
      ((scratch.foldl (mergeStepGen self store) (d, r)).1) =
        ((scratch.foldl (mergeStepGen self store) (d, r')).1) := by
  intro scratch
  induction scratch with
  | nil => intro d r r'; rfl
  | cons p rest ih =>
      intro d r r'
      rw [List.foldl_cons, List.foldl_cons]
      rcases hst : mergeStepGen self store (d, r) p with ⟨d₁, r₁⟩
      rcases hst' : mergeStepGen self store (d, r') p with ⟨d₂, r₂⟩
      have h1 : (mergeStepGen self store (d, r) p).1 = d₁ := by rw [hst]
      have h2 : (mergeStepGen self store (d, r') p).1 = d₂ := by rw [hst']
      have hd : d₁ = d₂ := by
        rw [← h1, ← h2]
        unfold mergeStepGen
        dsimp only
        cases hg : dictGet d.data p.1 with
        | none => rfl
        | some dlive =>
            dsimp only
            by_cases hl : dlive.linked = some self
            · simp [hl]
            · simp [hl]
      subst hd
      exact ih d₁ r₁ r₂

theorem mergeFoldGen_char (self : LinkObj) (store : DS → DS) :
    ∀ (scratch : List (String × DS)) (doc : Document) (n : String),
      dictKeysNodup scratch →
      dictGet ((scratch.foldl (mergeStepGen self store) (doc, [])).1).data n =
        (match dictGet scratch n, dictGet doc.data n with
         | some ds, some dlive =>
             if dlive.linked = some self then some (store ds) else some dlive
         | _, _ => dictGet doc.data n) := by
  intro scratch
  induction scratch with
  | nil =>
      intro doc n _
      rfl
  | cons p rest ih =>
      intro doc n hnd
      obtain ⟨m, ds⟩ := p
      rw [dictKeysNodup, List.map_cons, List.nodup_cons] at hnd
      obtain ⟨hm, hnd'⟩ := hnd
      rw [List.foldl_cons]
      by_cases hmn : m = n
      · subst hmn
        have hr : dictGet ((m, ds) :: rest) m = some ds := by simp [dictGet]
        rw [hr]
        cases hg : dictGet doc.data m with
        | none =>
            have hstep : mergeStepGen self store (doc, []) (m, ds) = (doc, []) := by
              unfold mergeStepGen
              dsimp only
              rw [hg]
            rw [hstep, mergeFoldGen_data_notmem self store rest (doc, []) m hm]
            try dsimp only
            rw [hg]
        | some dlive =>
            by_cases hl : dlive.linked = some self
            · have hstep : mergeStepGen self store (doc, []) (m, ds) =
                  ({ doc with data := dictSet doc.data m (store ds) }, [m]) := by
                unfold mergeStepGen
                dsimp only
                rw [hg]
                dsimp only
                rw [if_pos hl]
                rfl
              rw [hstep, mergeFoldGen_data_notmem self store rest _ m hm]
              show dictGet (dictSet doc.data m (store ds)) m = _
              rw [dictGet_dictSet_self]
              try dsimp only
              rw [if_pos hl]
            · have hstep : mergeStepGen self store (doc, []) (m, ds) = (doc, []) := by
                unfold mergeStepGen
                dsimp only
                rw [hg]
                dsimp only
                rw [if_neg hl]
              rw [hstep, mergeFoldGen_data_notmem self store rest (doc, []) m hm]
              try dsimp only
              rw [hg]
              try dsimp only
              rw [if_neg hl]
      · have hr : dictGet ((m, ds) :: rest) n = dictGet rest n := by
          simp [dictGet, hmn]
        rw [hr]
        rcases hst : mergeStepGen self store (doc, []) (m, ds) with ⟨d₁, r₁⟩
        have hd₁ : dictGet d₁.data n = dictGet doc.data n := by
          have hne := mergeStepGen_data_ne self store (doc, []) (m, ds) n hmn
          rw [hst] at hne
          exact hne
        rw [mergeFoldGen_read_indep self store rest d₁ r₁ [], ih d₁ n hnd', hd₁]

/-- C3 amended: the isolation guarantee holds for the two scratch-document
linkage kinds.  For `LinkedFile` and `Linked2DFile` merges, the binding of
every name `n` after the reload is: the freshly loaded dataset (for the 2D
variant re-linked to the object) exactly when `n` is in the scratch
document AND the live dataset under `n` has `linked` equal to this linkage
object; in every other case the prior binding, completely unchanged.  (A
`LinkedFITSFile` reload does not obey this: see the counterexample — it
overwrites the dataset under its stored name unconditionally.) -/
theorem C3_reload_isolation_amended (self : LinkObj) (scratch : List (String × DS))
    (doc : Document) (n : String) (hnd : dictKeysNodup scratch) :
    dictGet ((mergeScratchLF self scratch doc).1).data n =
      (match dictGet scratch n, dictGet doc.data n with
       | some ds, some dlive =>
           if dlive.linked = some self then some ds else some dlive
       | _, _ => dictGet doc.data n) ∧
    dictGet ((mergeScratch2D self scratch doc).1).data n =
      (match dictGet scratch n, dictGet doc.data n with
       | some ds, some dlive =>
           if dlive.linked = some self then some (DS.withLinked ds (some self))
           else some dlive
       | _, _ => dictGet doc.data n) := by
  constructor
  · have he : mergeScratchLF self scratch doc =
        scratch.foldl (mergeStepGen self (fun ds => ds)) (doc, []) := rfl
    rw [he]
    exact mergeFoldGen_char self (fun ds => ds) scratch doc n hnd
  · have he : mergeScratch2D self scratch doc =
        scratch.foldl (mergeStepGen self (fun ds => DS.withLinked ds (some self))) (doc, []) := rfl
    rw [he]
    exact mergeFoldGen_char self (fun ds => DS.withLinked ds (some self)) scratch doc n hnd

/-- Simple-file linkage for the C3 witness. -/
def lfW3 : LinkObj := LinkObj.simpleFile 1 ("f.dat") ("X") false

/-- Live dataset linked to `lfW3`. -/
def dsXW3 : Dataset :=
  { data := some [2], serr := none, nerr := none, perr := none, linked := some lfW3 }

/-- Freshly parsed scratch dataset. -/
def freshXW3 : DS :=
  DS.one { data := some [5], serr := none, nerr := none, perr := none, linked := some lfW3 }

/-- Concrete document for the C3 witness: `X` is linked to the object,
`Y` is unrelated literal data. -/
def docW3 : Document :=
  { data := [("X", DS.one dsXW3), ("Y", DS.one dsY3)]
    basewidget := rootWidget
    changeset := 0
    modified := false }

/-- Witness for the amended C3: on a concrete reload the linked `X` is
replaced by the scratch dataset while the unrelated `Y` keeps its binding. -/
theorem C3_reload_isolation_amended_witness :
    dictGet ((mergeScratchLF lfW3 [("X", freshXW3)] docW3).1).data ("X") =
      some freshXW3 ∧
    dictGet ((mergeScratchLF lfW3 [("X", freshXW3)] docW3).1).data ("Y") =
      some (DS.one dsY3) := by
  have hX := (C3_reload_isolation_amended lfW3 [("X", freshXW3)] docW3 ("X")
    (by simp [dictKeysNodup])).1
  have hY := (C3_reload_isolation_amended lfW3 [("X", freshXW3)] docW3 ("Y")
    (by simp [dictKeysNodup])).1
  constructor
  · rw [hX]
    decide
  · rw [hY]
    decide

/-- FITS linkage for the C6 failing input: dataset name `ab`. -/
def fits6 : LinkObj := LinkObj.fits 0 ("ab") ("t.fits")

/-- Live dataset `ab`, linked to the FITS file. -/
def ds6 : Dataset :=
  { data := some [1], serr := none, nerr := none, perr := none, linked := some fits6 }

/-- Concrete document for C6, at changeset 5. -/
def doc6 : Document :=
  { data := [("ab", DS.one ds6)], basewidget := rootWidget, changeset := 5, modified := false }

/-- What `importFITS` reads during the reload. -/
def freshAB6 : DS :=
  DS.one { data := some [2], serr := none, nerr := none, perr := none, linked := none }

/-- Oracle for the C6 failing input. -/
def oracle6 : ReloadOracle :=
  { lfScratch := fun _ => []
    lfErrors := fun _ => []
    f2dScratch := fun _ => none
    fitsDataset := fun _ => freshAB6 }

/-- C6 at the failing input: the loop does invoke `reloadLinks` exactly
once for the one distinct linkage, and the error maps merge — but because
`LinkedFITSFile.reloadLinks` returns the STRING `"ab"` where its sibling
implementations return a list of names, `read += nread` concatenates the
characters, and `reloadLinkedDatasets` returns `["a", "b"]` instead of
`["ab"]`; and the changeset advances by 2 (once inside the per-link reload
via `setData`/`setModified`, once in the aggregate step), not exactly
once. -/
theorem C6_reload_aggregate_failing_input :
    (Document.reloadLinkedDatasets oracle6 doc6).2.2.2 = [fits6] ∧
    (Document.reloadLinkedDatasets oracle6 doc6).2.1 = ["a", "b"] ∧
    (Document.reloadLinkedDatasets oracle6 doc6).2.2.1 = [("ab", 0)] ∧
    (Document.reloadLinkedDatasets oracle6 doc6).1.changeset = doc6.changeset + 2 := by
  decide

/-! ### C9: the heap lemmas for `GetData` -/

theorem readH_append (h ext : Heap) (i : Nat) (hi : i < h.length) :
    readH (h ++ ext) i = readH h i := by
  unfold readH
  rw [List.getD_eq_getElem?_getD, List.getD_eq_getElem?_getD, List.getElem?_append_left hi]

theorem readH_concat_self (h : Heap) (v : List Int) :
    readH (h ++ [v]) h.length = v := by
  unfold readH
  rw [List.getD_eq_getElem?_getD, List.getElem?_concat_length]
  rfl

theorem readH_write_ne (h : Heap) (i j : Nat) (v : List Int) (hne : j ≠ i) :
    readH (writeH h i v) j = readH h j := by
  unfold readH writeH
  rw [List.getD_eq_getElem?_getD, List.getD_eq_getElem?_getD,
    List.getElem?_set_ne (fun hh => hne hh.symm)]

theorem length_writeH (h : Heap) (i : Nat) (v : List Int) :
    (writeH h i v).length = h.length := by
  unfold writeH
  exact List.length_set h i v

theorem copyOptArr_len (h : Heap) (o : Option Nat) :
    h.length ≤ (copyOptArr h o).1.length := by
  cases o with
  | none => exact Nat.le_refl _
  | some r =>
      simp [copyOptArr]

theorem copyOptArr_pres (h : Heap) (o : Option Nat) (i : Nat) (hi : i < h.length) :
    readH (copyOptArr h o).1 i = readH h i := by
  cases o with
  | none => rfl
  | some r => exact readH_append h [readH h r] i hi

theorem copyOptArr_ref_lb (h : Heap) (o : Option Nat) (r : Nat)
    (hr : (copyOptArr h o).2 = some r) : h.length ≤ r := by
  cases o with
  | none => exact absurd hr (by simp [copyOptArr])
  | some x =>
      have : h.length = r := Option.some.inj hr
      omega

theorem copyOptArr_ref_lt (h : Heap) (o : Option Nat) (r : Nat)
    (hr : (copyOptArr h o).2 = some r) : r < (copyOptArr h o).1.length := by
  cases o with
  | none => exact absurd hr (by simp [copyOptArr])
  | some x =>
      have h1 : h.length = r := Option.some.inj hr
      simp [copyOptArr, ← h1]

theorem copyOptArr_val (h : Heap) (o : Option Nat) :
    refVal (copyOptArr h o).1 (copyOptArr h o).2 = refVal h o := by
  cases o with
  | none => rfl
  | some r =>
      show some (readH (h ++ [readH h r]) h.length) = some (readH h r)
      exact congrArg some (readH_concat_self h (readH h r))

theorem refVal_mono (h h' : Heap) (o : Option Nat)
    (hp : ∀ i, o = some i → readH h' i = readH h i) : refVal h' o = refVal h o := by
  cases o with
  | none => rfl
  | some i =>
      show some (readH h' i) = some (readH h i)
      exact congrArg some (hp i rfl)

/-- One heap extends another: it is at least as long and agrees on every
preexisting cell. -/
def heapExt (h h' : Heap) : Prop :=
  h.length ≤ h'.length ∧ ∀ i, i < h.length → readH h' i = readH h i

theorem heapExt_trans (h₁ h₂ h₃ : Heap) (e1 : heapExt h₁ h₂) (e2 : heapExt h₂ h₃) :
    heapExt h₁ h₃ := by
  obtain ⟨l1, p1⟩ := e1
  obtain ⟨l2, p2⟩ := e2
  refine ⟨Nat.le_trans l1 l2, ?_⟩
  intro i hi
  rw [p2 i (by omega), p1 i hi]

theorem copyOptArr_ext (h : Heap) (o : Option Nat) : heapExt h (copyOptArr h o).1 :=
  ⟨copyOptArr_len h o, fun i hi => copyOptArr_pres h o i hi⟩

theorem copyOptArr_ref_valid (h : Heap) (o : Option Nat) :
    validRef (copyOptArr h o).1 (copyOptArr h o).2 := by
  cases o with
  | none => exact trivial
  | some r =>
      show h.length < (h ++ [readH h r]).length
      simp

theorem validRef_heapExt (h h' : Heap) (o : Option Nat) (e : heapExt h h')
    (hv : validRef h o) : validRef h' o := by
  cases o with
  | none => exact trivial
  | some r =>
      show r < h'.length
      have hr : r < h.length := hv
      have := e.1
      omega

theorem refVal_heapExt (h h' : Heap) (o : Option Nat) (e : heapExt h h')
    (hv : validRef h o) : refVal h' o = refVal h o := by
  refine refVal_mono h h' o ?_
  intro i hi
  have hr : i < h.length := by
    rw [hi] at hv
    exact hv
  exact e.2 i hr

/-- The heap after writes at the given addresses has the same length. -/
theorem applyWrites_length :
    ∀ (ws : List (Nat × List Int)) (h : Heap),
      (applyWrites h ws).length = h.length := by
  intro ws
  induction ws with
  | nil => intro h; rfl
  | cons w t ih =>
      intro h
      show (applyWrites (writeH h w.1 w.2) t).length = h.length
      rw [ih, length_writeH]

/-- Writes confined to addresses at or above `n` preserve every cell
below `n`. -/
theorem applyWrites_pres :
    ∀ (ws : List (Nat × List Int)) (h : Heap) (n : Nat),
      (∀ w ∈ ws, n ≤ w.1) → ∀ j, j < n → readH (applyWrites h ws) j = readH h j := by
  intro ws
  induction ws with
  | nil => intro h n _ j _; rfl
  | cons w t ih =>
      intro h n hws j hj
      show readH (applyWrites (writeH h w.1 w.2) t) j = readH h j
      rw [ih (writeH h w.1 w.2) n (fun x hx => hws x (List.mem_cons_of_mem w hx)) j hj]
      exact readH_write_ne h w.1 j w.2
        (fun hh => absurd (hws w (List.mem_cons_self w t)) (by omega))

/-- `GetData` only extends the heap: every preexisting cell reads the
same afterwards. -/
theorem GetData_pres (h : Heap) (d : DatasetRefs) (i : Nat) (hi : i < h.length) :
    readH (GetData h d).1 i = readH h i := by
  have l1 := copyOptArr_len h d.data
  have l2 := copyOptArr_len (copyOptArr h d.data).1 d.serr
  have l3 := copyOptArr_len (copyOptArr (copyOptArr h d.data).1 d.serr).1 d.nerr
  show readH (copyOptArr (copyOptArr (copyOptArr (copyOptArr h d.data).1 d.serr).1
      d.nerr).1 d.perr).1 i = readH h i
  rw [copyOptArr_pres _ _ _ (by omega), copyOptArr_pres _ _ _ (by omega),
    copyOptArr_pres _ _ _ (by omega), copyOptArr_pres _ _ _ hi]

theorem GetData_len (h : Heap) (d : DatasetRefs) : h.length ≤ (GetData h d).1.length := by
  have l1 := copyOptArr_len h d.data
  have l2 := copyOptArr_len (copyOptArr h d.data).1 d.serr
  have l3 := copyOptArr_len (copyOptArr (copyOptArr h d.data).1 d.serr).1 d.nerr
  have l4 := copyOptArr_len (copyOptArr (copyOptArr (copyOptArr h d.data).1 d.serr).1
      d.nerr).1 d.perr
  show h.length ≤ (copyOptArr (copyOptArr (copyOptArr (copyOptArr h d.data).1 d.serr).1
      d.nerr).1 d.perr).1.length
  omega

/-- Every address `GetData` returns denotes a freshly allocated cell: it
lies at or beyond the original heap's end. -/
theorem GetData_refs_lb (h : Heap) (d : DatasetRefs) (i : Nat)
    (hin : inRefs (GetData h d).2 i) : h.length ≤ i := by
  have l1 := copyOptArr_len h d.data
  have l2 := copyOptArr_len (copyOptArr h d.data).1 d.serr
  have l3 := copyOptArr_len (copyOptArr (copyOptArr h d.data).1 d.serr).1 d.nerr
  rcases hin with hr | hr | hr | hr
  · exact copyOptArr_ref_lb h d.data i hr
  · have := copyOptArr_ref_lb (copyOptArr h d.data).1 d.serr i hr
    omega
  · have := copyOptArr_ref_lb (copyOptArr (copyOptArr h d.data).1 d.serr).1 d.nerr i hr
    omega
  · have := copyOptArr_ref_lb (copyOptArr (copyOptArr (copyOptArr h d.data).1 d.serr).1
      d.nerr).1 d.perr i hr
    omega

/-- The tuple `GetData` returns reads back exactly the dataset's current
contents (they are copies of it). -/
theorem GetData_contents (h : Heap) (d : DatasetRefs) (hv : validRefs h d) :
    refsContents (GetData h d).1 (GetData h d).2 = refsContents h d := by
  obtain ⟨hvd, hvs, hvn, hvp⟩ := hv
  have e1 : heapExt h (copyOptArr h d.data).1 := copyOptArr_ext h d.data
  have e2 : heapExt (copyOptArr h d.data).1
      (copyOptArr (copyOptArr h d.data).1 d.serr).1 := copyOptArr_ext _ _
  have e3 : heapExt (copyOptArr (copyOptArr h d.data).1 d.serr).1
      (copyOptArr (copyOptArr (copyOptArr h d.data).1 d.serr).1 d.nerr).1 :=
    copyOptArr_ext _ _
  have e4 : heapExt (copyOptArr (copyOptArr (copyOptArr h d.data).1 d.serr).1 d.nerr).1
      (copyOptArr (copyOptArr (copyOptArr (copyOptArr h d.data).1 d.serr).1 d.nerr).1
        d.perr).1 := copyOptArr_ext _ _
  have hc1 : refVal (GetData h d).1 (GetData h d).2.data = refVal h d.data := by
    show refVal (copyOptArr (copyOptArr (copyOptArr (copyOptArr h d.data).1 d.serr).1
        d.nerr).1 d.perr).1 (copyOptArr h d.data).2 = refVal h d.data
    rw [refVal_heapExt _ _ _ (heapExt_trans _ _ _ e2 (heapExt_trans _ _ _ e3 e4))
        (copyOptArr_ref_valid h d.data)]
    exact copyOptArr_val h d.data
  have hc2 : refVal (GetData h d).1 (GetData h d).2.serr = refVal h d.serr := by
    show refVal (copyOptArr (copyOptArr (copyOptArr (copyOptArr h d.data).1 d.serr).1
        d.nerr).1 d.perr).1 (copyOptArr (copyOptArr h d.data).1 d.serr).2 = refVal h d.serr
    rw [refVal_heapExt _ _ _ (heapExt_trans _ _ _ e3 e4)
        (copyOptArr_ref_valid (copyOptArr h d.data).1 d.serr)]
    rw [copyOptArr_val (copyOptArr h d.data).1 d.serr]
    exact refVal_heapExt _ _ _ e1 hvs
  have hc3 : refVal (GetData h d).1 (GetData h d).2.nerr = refVal h d.nerr := by
    show refVal (copyOptArr (copyOptArr (copyOptArr (copyOptArr h d.data).1 d.serr).1
        d.nerr).1 d.perr).1
        (copyOptArr (copyOptArr (copyOptArr h d.data).1 d.serr).1 d.nerr).2 =
      refVal h d.nerr
    rw [refVal_heapExt _ _ _ e4
        (copyOptArr_ref_valid (copyOptArr (copyOptArr h d.data).1 d.serr).1 d.nerr)]
    rw [copyOptArr_val (copyOptArr (copyOptArr h d.data).1 d.serr).1 d.nerr]
    exact refVal_heapExt _ _ _ (heapExt_trans _ _ _ e1 e2) hvn
  have hc4 : refVal (GetData h d).1 (GetData h d).2.perr = refVal h d.perr := by
    show refVal (copyOptArr (copyOptArr (copyOptArr (copyOptArr h d.data).1 d.serr).1
        d.nerr).1 d.perr).1
        (copyOptArr (copyOptArr (copyOptArr (copyOptArr h d.data).1 d.serr).1 d.nerr).1
          d.perr).2 = refVal h d.perr
    rw [copyOptArr_val (copyOptArr (copyOptArr (copyOptArr h d.data).1 d.serr).1
        d.nerr).1 d.perr]
    exact refVal_heapExt _ _ _ (heapExt_trans _ _ _ e1 (heapExt_trans _ _ _ e2 e3)) hvp
  show (refVal (GetData h d).1 (GetData h d).2.data,
        refVal (GetData h d).1 (GetData h d).2.serr,
        refVal (GetData h d).1 (GetData h d).2.nerr,
        refVal (GetData h d).1 (GetData h d).2.perr) = _
  rw [hc1, hc2, hc3, hc4]
  rfl

/-- C9: `GetData` hands back defensive copies.  For any sequence of caller
writes confined to the addresses `GetData` returned, the dataset's own
contents are untouched, and a second `GetData` with no intervening
document mutation returns exactly the contents the first one returned. -/
theorem C9_GetData_defensive_copies (h : Heap) (d : DatasetRefs)
    (ws : List (Nat × List Int)) (hv : validRefs h d)
    (hws : ∀ w ∈ ws, inRefs (GetData h d).2 w.1) :
    refsContents (applyWrites (GetData h d).1 ws) d = refsContents h d ∧
    refsContents (GetData (applyWrites (GetData h d).1 ws) d).1
        (GetData (applyWrites (GetData h d).1 ws) d).2 =
      refsContents (GetData h d).1 (GetData h d).2 := by
  obtain ⟨hvd, hvs, hvn, hvp⟩ := hv
  have hlow : ∀ i, i < h.length → readH (applyWrites (GetData h d).1 ws) i = readH h i := by
    intro i hi
    rw [applyWrites_pres ws (GetData h d).1 h.length
        (fun w hw => GetData_refs_lb h d w.1 (hws w hw)) i hi]
    exact GetData_pres h d i hi
  have hvalid : ∀ (o : Option Nat), validRef h o →
      refVal (applyWrites (GetData h d).1 ws) o = refVal h o := by
    intro o ho
    refine refVal_mono _ _ _ ?_
    intro i hi
    have : i < h.length := by
      rw [hi] at ho
      exact ho
    exact hlow i this
  have hB : refsContents (applyWrites (GetData h d).1 ws) d = refsContents h d := by
    show (refVal (applyWrites (GetData h d).1 ws) d.data,
          refVal (applyWrites (GetData h d).1 ws) d.serr,
          refVal (applyWrites (GetData h d).1 ws) d.nerr,
          refVal (applyWrites (GetData h d).1 ws) d.perr) = _
    rw [hvalid d.data hvd, hvalid d.serr hvs, hvalid d.nerr hvn, hvalid d.perr hvp]
    rfl
  refine ⟨hB, ?_⟩
  have hlen : h.length ≤ (applyWrites (GetData h d).1 ws).length := by
    rw [applyWrites_length ws (GetData h d).1]
    exact GetData_len h d
  have hext : heapExt h (applyWrites (GetData h d).1 ws) := ⟨hlen, hlow⟩
  have hv₂ : validRefs (applyWrites (GetData h d).1 ws) d :=
    ⟨validRef_heapExt _ _ _ hext hvd, validRef_heapExt _ _ _ hext hvs,
     validRef_heapExt _ _ _ hext hvn, validRef_heapExt _ _ _ hext hvp⟩
  rw [GetData_contents (applyWrites (GetData h d).1 ws) d hv₂, hB,
    GetData_contents h d ⟨hvd, hvs, hvn, hvp⟩]

/-- Concrete heap for the C9 witness: the dataset owns cells 0 and 1. -/
def hEx9 : Heap := [[1, 2], [3, 3]]

/-- Concrete literal dataset refs for the C9 witness. -/
def dEx9 : DatasetRefs := { data := some 0, serr := some 1, nerr := none, perr := none }

/-- The caller scribbles over both returned copies (cells 2 and 3). -/
def wsEx9 : List (Nat × List Int) := [(2, [9, 9]), (3, [8])]

/-- Witness for C9: concrete heap, dataset, and caller writes. -/
theorem C9_GetData_defensive_copies_witness :
    refsContents (applyWrites (GetData hEx9 dEx9).1 wsEx9) dEx9 = refsContents hEx9 dEx9 ∧
    refsContents (GetData (applyWrites (GetData hEx9 dEx9).1 wsEx9) dEx9).1
        (GetData (applyWrites (GetData hEx9 dEx9).1 wsEx9) dEx9).2 =
      refsContents (GetData hEx9 dEx9).1 (GetData hEx9 dEx9).2 :=
  C9_GetData_defensive_copies hEx9 dEx9 wsEx9 (by decide) (by decide)

end Veusz
